import Mathlib

/-!
Verification of the core of `linter-glslify` (src/linter-glslify.ts): the
filename-to-shader-stage classifier (`extractShaderFilenameTokens`) and the
validator-output parser (`parseGlslValidatorResponse`).

The embedding translates the TypeScript source directly:

* The five filename regexes and the two diagnostic regexes have only
  fixed-length components after the leading dot-star / character class, so JS
  greedy matching is deterministic; each regex is embedded as an explicit
  structural matcher whose groups are exactly the JS capture groups.
* JS string primitives used by the source (`split(os.EOL)` with POSIX
  `os.EOL = "\n"`, `endsWith`, `trim`, `toLowerCase` restricted to the ASCII
  strings the patterns can produce, `parseInt` on digit runs,
  Node's `path.basename`/`path.dirname` POSIX variants) are modelled on
  `List Char`.
* Validator line/column numbers are modelled as `Int` so that the clamping in
  the source (`lineStart > 0 ? lineStart - 1 : 0`) is observable.
-/

namespace LinterGlslify

/-- Characters the JS dot `.` does not match (no `s` flag in the source). -/
def isLineTerminator (c : Char) : Bool :=
  c == '\n' || c == '\r' || c == ' ' || c == ' '

/-- Content matched by a JS `.*`: every character must be a non-terminator. -/
def noLineTerm (cs : List Char) : Bool :=
  cs.all fun c => !isLineTerminator c

/-- Whitespace removed by JS `String.prototype.trim`. -/
def isJsWhitespace (c : Char) : Bool :=
  c == ' ' || c == '\t' || c == '\n' || c == '\r' || c == '\x0b' || c == '\x0c'
    || c == ' ' || c == ' '
    || (0x2000 ≤ c.toNat && c.toNat ≤ 0x200a)
    || c == ' ' || c == ' ' || c == ' ' || c == ' '
    || c == '　' || c == '﻿'

/-- Models JS `String.prototype.trim`. -/
def jsTrim (s : String) : String :=
  ⟨((s.data.dropWhile isJsWhitespace).reverse.dropWhile isJsWhitespace).reverse⟩

/-- Models JS `String.prototype.toLowerCase`.  `Char.toLower` lowers only
ASCII letters; this coincides with JS on the strings `getSeverity` ever
receives from the parser, because the severity group is matched by the
ASCII-only class `[\w \-]+`. -/
def jsToLower (s : String) : String :=
  ⟨s.data.map Char.toLower⟩

/-- Models JS `String.prototype.endsWith` (one-argument form). -/
def jsEndsWith (s suffix : String) : Bool :=
  suffix.data.isSuffixOf s.data

/-- Models Node `path.posix.basename` (no extension argument): drop trailing
slashes, then keep the final path segment; empty result when nothing remains. -/
def basename (p : String) : String :=
  let cs := p.data.reverse.dropWhile (· == '/')
  ⟨(cs.takeWhile (· != '/')).reverse⟩

/-- Models Node `path.posix.dirname`.  The scan mirrors Node's loop, which
inspects indices `len-1 .. 1` (never index 0): skip trailing slashes, skip the
final segment; the remaining length is the end index of the directory part. -/
def dirname (p : String) : String :=
  if p.data.isEmpty then "." else
    let hasRoot := p.data.head? == some '/'
    let rev := p.data.reverse.take (p.data.length - 1)
    let afterName := (rev.dropWhile (· == '/')).dropWhile (· != '/')
    match afterName with
    | [] => if hasRoot then "/" else "."
    | _ =>
      if hasRoot && afterName.length == 1 then "//"
      else ⟨p.data.take afterName.length⟩

/-- Split on a single character, JS `String.prototype.split` semantics for a
one-character separator: `"" ↦ [""]`, separators at the ends produce empty
fields. -/
def splitOnChar (sep : Char) : List Char → List (List Char)
  | [] => [[]]
  | x :: xs =>
    let r := splitOnChar sep xs
    if x == sep then [] :: r
    else
      match r with
      | h :: t => (x :: h) :: t
      | [] => [[x]]

/-- Models `output.split(os.EOL)` from the source with POSIX `os.EOL = "\n"`. -/
def splitEol (output : String) : List String :=
  (splitOnChar '\n' output.data).map fun l => (⟨l⟩ : String)

/-- Models `parseInt(s, 10)` on the strings captured by a `(\d+)` group
(a nonempty run of ASCII digits). -/
def parseIntDigits (s : String) : Nat :=
  s.data.foldl (fun n c => 10 * n + (c.toNat - '0'.toNat)) 0

/-- Alternation `(v|g|f)` of `char1glslRegex` / `char1shRegex`. -/
def isChar1Code (c : Char) : Bool :=
  c == 'v' || c == 'g' || c == 'f'

/-- Alternation `(vs|tc|te|gs|fs|cs)` of `char2glslRegex` / `char2Regex`. -/
def isChar2Code (s : String) : Bool :=
  s == "vs" || s == "tc" || s == "te" || s == "gs" || s == "fs" || s == "cs"

/-- Alternation `(vert|frag|geom|tesc|tese|comp)` of `defaultRegex`. -/
def isChar4Code (s : String) : Bool :=
  s == "vert" || s == "frag" || s == "geom" || s == "tesc" || s == "tese" || s == "comp"

/-- Semantics of `char1glslRegex = /^(.*(?:\.|_))(v|g|f)(\.glsl)$/`.
Everything after the dot-star has fixed length, so the greedy match is forced:
the string must end in `".glsl"`, preceded by one of `v`/`g`/`f`, preceded by
`'.'` or `'_'`; group 1 is the (line-terminator-free) prefix up to and
including that separator, group 2 the stage letter. -/
def char1glslExec (s : String) : Option (String × Char) :=
  match s.data.reverse with
  | c5 :: c4 :: c3 :: c2 :: c1 :: c :: sep :: rest =>
    if (c5 == 'l' && c4 == 's' && c3 == 'l' && c2 == 'g' && c1 == '.')
        && isChar1Code c && (sep == '.' || sep == '_') && noLineTerm rest then
      some (⟨(sep :: rest).reverse⟩, c)
    else none
  | _ => none

/-- Semantics of `char2glslRegex = /^(.*(?:\.|_))(vs|tc|te|gs|fs|cs)(\.glsl)$/`,
deterministic for the same reason as `char1glslExec`. -/
def char2glslExec (s : String) : Option (String × String) :=
  match s.data.reverse with
  | c5 :: c4 :: c3 :: c2 :: c1 :: b :: a :: sep :: rest =>
    if (c5 == 'l' && c4 == 's' && c3 == 'l' && c2 == 'g' && c1 == '.')
        && isChar2Code ⟨[a, b]⟩ && (sep == '.' || sep == '_') && noLineTerm rest then
      some (⟨(sep :: rest).reverse⟩, ⟨[a, b]⟩)
    else none
  | _ => none

/-- Semantics of `char1shRegex = /^(.*\.)(v|g|f)sh$/`: the string ends in
`"sh"`, preceded by a stage letter, preceded by a literal `'.'` that closes
group 1. -/
def char1shExec (s : String) : Option (String × Char) :=
  match s.data.reverse with
  | h1 :: s1 :: c :: d :: rest =>
    if (h1 == 'h' && s1 == 's' && d == '.') && isChar1Code c && noLineTerm rest then
      some (⟨(d :: rest).reverse⟩, c)
    else none
  | _ => none

/-- Semantics of `char2Regex = /^(.*\.)(vs|tc|te|gs|fs|cs)$/`. -/
def char2Exec (s : String) : Option (String × String) :=
  match s.data.reverse with
  | b :: a :: d :: rest =>
    if (d == '.') && isChar2Code ⟨[a, b]⟩ && noLineTerm rest then
      some (⟨(d :: rest).reverse⟩, ⟨[a, b]⟩)
    else none
  | _ => none

/-- Semantics of `defaultRegex = /^(.*\.)(vert|frag|geom|tesc|tese|comp)$/`. -/
def defaultExec (s : String) : Option (String × String) :=
  match s.data.reverse with
  | c4 :: c3 :: c2 :: c1 :: d :: rest =>
    if (d == '.') && isChar4Code ⟨[c1, c2, c3, c4]⟩ && noLineTerm rest then
      some (⟨(d :: rest).reverse⟩, ⟨[c1, c2, c3, c4]⟩)
    else none
  | _ => none

/-- `interface ShaderType` from the source. -/
structure ShaderType where
  char1 : Option String
  char2 : String
  char4 : String
  name : String
deriving DecidableEq

/-- The fixed `shaderTypes` table from the source, in source order. -/
def shaderTypes : List ShaderType :=
  [ { char1 := some "v", char2 := "vs", char4 := "vert", name := "vertex" }
  , { char1 := some "f", char2 := "fs", char4 := "frag", name := "fragment" }
  , { char1 := some "g", char2 := "gs", char4 := "geom", name := "geometry" }
  , { char1 := none, char2 := "te", char4 := "tese", name := "tessellation evaluation" }
  , { char1 := none, char2 := "tc", char4 := "tesc", name := "tessellation control" }
  , { char1 := none, char2 := "cs", char4 := "comp", name := "compute" } ]

/-- `VALID_SEVERITY` from the source. -/
def VALID_SEVERITY : List String := ["error", "warning", "info"]

/-- `getSeverity` from the source. -/
def getSeverity (givenSeverity : String) : String :=
  let severity := jsToLower givenSeverity
  if VALID_SEVERITY.contains severity then severity else "warning"

/-- `shaderTypeLookup` from the source: first table entry whose selected field
equals the value (`filter(...)[0]`, so `none` when nothing matches; a missing
`char1` compares unequal to every string, like `undefined === v` in JS). -/
def shaderTypeLookup (field : ShaderType → Option String) (fieldValue : String) :
    Option ShaderType :=
  (shaderTypes.filter fun t => field t == some fieldValue).head?

/-- `shaderByChar1` from the source. -/
def shaderByChar1 (c : String) : Option ShaderType :=
  shaderTypeLookup (fun t => t.char1) c

/-- `shaderByChar2` from the source. -/
def shaderByChar2 (c : String) : Option ShaderType :=
  shaderTypeLookup (fun t => some t.char2) c

/-- `shaderByChar4` from the source. -/
def shaderByChar4 (c : String) : Option ShaderType :=
  shaderTypeLookup (fun t => some t.char4) c

/-- `interface ShaderTokens` from the source. -/
structure ShaderTokens where
  baseFilename : String
  baseShaderType : ShaderType
  dirName : String
  outFilename : String
  fullFilename : String
deriving DecidableEq

/-- Failure modes of `extractShaderFilenameTokens`: `unknownShaderType` is the
`throw Error("Unknown shader type")` of the source; `lookupFailed` models the
crash that would occur if a matched code were missing from the stage table
(`shaderTypeLookup` returning `undefined`) — proved unreachable. -/
inductive ClassifyError
  | unknownShaderType
  | lookupFailed
deriving DecidableEq

/-- The five-pattern priority chain of `extractShaderFilenameTokens`, tried in
the source's `if`/`else if` order (char1glsl, char2glsl, char1sh, char2,
default), paired with the stage lookup the source performs on the matched
code. -/
def classifyMatch (fileName : String) : Option (String × Option ShaderType) :=
  match char1glslExec fileName with
  | some (b, c) => some (b, shaderByChar1 ⟨[c]⟩)
  | none =>
    match char2glslExec fileName with
    | some (b, c2) => some (b, shaderByChar2 c2)
    | none =>
      match char1shExec fileName with
      | some (b, c) => some (b, shaderByChar1 ⟨[c]⟩)
      | none =>
        match char2Exec fileName with
        | some (b, c2) => some (b, shaderByChar2 c2)
        | none =>
          match defaultExec fileName with
          | some (b, c4) => some (b, shaderByChar4 c4)
          | none => none

/-- `extractShaderFilenameTokens` from the source. -/
def extractShaderFilenameTokens (shaderFilename : String) :
    Except ClassifyError ShaderTokens :=
  match classifyMatch (basename shaderFilename) with
  | none => Except.error ClassifyError.unknownShaderType
  | some (_, none) => Except.error ClassifyError.lookupFailed
  | some (baseFilename, some baseShaderType) =>
    let outFilename := if jsEndsWith baseFilename "." then baseFilename else baseFilename ++ "."
    Except.ok
      { baseFilename := baseFilename
      , baseShaderType := baseShaderType
      , dirName := dirname shaderFilename
      , outFilename := outFilename ++ baseShaderType.char4
      , fullFilename := shaderFilename }

/-- Positions are `Int` so the source's clamping of computed values is
observable; a `Range` is `[[line, col], [line, col]]`. -/
abbrev Pos := Int × Int

/-- Range type of the source (`type Range = [[number, number], [number, number]]`). -/
abbrev Range := Pos × Pos

/-- `interface Shader` from the source. -/
structure Shader where
  type : ShaderType
  name : String
  fullFilename : Option String
  contents : String
  outFilename : Option String
deriving DecidableEq

/-- Location part of `LintResult` from the source. -/
structure LintLocation where
  file : Option String
  position : Range
deriving DecidableEq

/-- `interface LintResult` from the source. -/
structure LintResult where
  severity : String
  excerpt : String
  location : LintLocation
deriving DecidableEq

/-- Semantics of `compileRegex = "^([\w \-]+): (\d+):(\d+): (.*)$"`.
`[\w \-]` is ASCII word characters, space and hyphen; since `':'` is not in
the class and not a digit, every group is forced to be the maximal run at its
position, so matching is deterministic.  Groups are returned in source order:
severity word, column digits, line digits, message. -/
def isWordSpaceHyphen (c : Char) : Bool :=
  c.isAlpha || c.isDigit || c == '_' || c == ' ' || c == '-'

/-- Executes the compile-diagnostic pattern on one line (see
`isWordSpaceHyphen` for determinism). -/
def compileExec (line : String) : Option (String × String × String × String) :=
  let cs := line.data
  let g1 := cs.takeWhile isWordSpaceHyphen
  if g1.isEmpty then none
  else
    match cs.drop g1.length with
    | ':' :: ' ' :: r1 =>
      let g2 := r1.takeWhile Char.isDigit
      if g2.isEmpty then none
      else
        match r1.drop g2.length with
        | ':' :: r2 =>
          let g3 := r2.takeWhile Char.isDigit
          if g3.isEmpty then none
          else
            match r2.drop g3.length with
            | ':' :: ' ' :: r3 =>
              if noLineTerm r3 then some (⟨g1⟩, ⟨g2⟩, ⟨g3⟩, ⟨r3⟩) else none
            | _ => none
        | _ => none
    | _ => none

/-- Semantics of `linkRegex = "^([\w \-]+): Linking {{typeName}} stage: (.*)$"`
after the source substitutes the shader's stage display name for the
placeholder (stage names contain no regex metacharacters).  Group 1 is again
the forced-maximal `[\w \-]+` run; the literal `": Linking <typeName> stage: "`
must follow it, and group 2 is the rest of the line. -/
def linkExec (typeName : String) (line : String) : Option (String × String) :=
  let cs := line.data
  let g1 := cs.takeWhile isWordSpaceHyphen
  if g1.isEmpty then none
  else
    let lit := (": Linking " ++ typeName ++ " stage: ").data
    let rest := cs.drop g1.length
    if lit.isPrefixOf rest && noLineTerm (rest.drop lit.length) then
      some (⟨g1⟩, ⟨rest.drop lit.length⟩)
    else none

/-- The `LintResult` the source pushes for a compile-pattern match:
`match[2]` is the column, `match[3]` the line; both are decremented and
clamped at 0, and start equals end. -/
def compileDiagOf (shader : Shader) (g1 g2 g3 g4 : String) : LintResult :=
  let lineStart : Int := (parseIntDigits g3 : Int)
  let colStart : Int := (parseIntDigits g2 : Int)
  let lineEnd : Int := lineStart
  let colEnd : Int := colStart
  { severity := getSeverity g1
  , excerpt := jsTrim g4
  , location :=
    { file := shader.fullFilename
    , position :=
        ((if lineStart > 0 then lineStart - 1 else 0,
          if colStart > 0 then colStart - 1 else 0),
         (if lineEnd > 0 then lineEnd - 1 else 0,
          if colEnd > 0 then colEnd - 1 else 0)) } }

/-- The `LintResult` the source pushes for a link-pattern match: the position
is the caller-supplied `firstRowRange`. -/
def linkDiagOf (shader : Shader) (firstRowRange : Range) (g1 g2 : String) : LintResult :=
  { severity := getSeverity g1
  , excerpt := jsTrim g2
  , location := { file := shader.fullFilename, position := firstRowRange } }

/-- One iteration of the source's per-line loop for one shader.  The state is
`(compileStarted, toReturn)`: a line ending with the shader's name only
(re)activates the compile section; otherwise, when the section is active or
exactly one shader was submitted, the compile pattern is tried (a failure
deactivates the section); independently, the link pattern is always tried. -/
def shaderLineStep (single : Bool) (shader : Shader) (firstRowRange : Range)
    (p : Bool × List LintResult) (line : String) : Bool × List LintResult :=
  let q : Bool × List LintResult :=
    if jsEndsWith line shader.name then (true, p.2)
    else if p.1 || single then
      match compileExec line with
      | some (g1, g2, g3, g4) => (p.1, p.2 ++ [compileDiagOf shader g1 g2 g3 g4])
      | none => (false, p.2)
    else p
  match linkExec shader.type.name line with
  | some (g1, g2) => (q.1, q.2 ++ [linkDiagOf shader firstRowRange g1 g2])
  | none => q

/-- `parseGlslValidatorResponse` from the source: for each submitted shader in
order, scan the split output with `shaderLineStep` starting from an inactive
section, concatenating all pushed diagnostics. -/
def parseGlslValidatorResponse (inputs : List Shader) (output : String)
    (firstRowRange : Range) : List LintResult :=
  inputs.flatMap fun shader =>
    ((splitEol output).foldl
      (shaderLineStep (inputs.length == 1) shader firstRowRange) (false, [])).2

/-! Derived, proof-facing decompositions of `shaderLineStep`.  These are not
new behaviour: `shaderLineStep_eq` below proves the step is exactly the pair
of `sectionState` and the two per-line diagnostic lists. -/

/-- State evolution of the compile section for one line. -/
def sectionState (single : Bool) (shader : Shader) (st : Bool) (line : String) : Bool :=
  if jsEndsWith line shader.name then true
  else if st || single then
    match compileExec line with
    | some _ => st
    | none => false
  else st

/-- Compile-pattern diagnostics emitted for one line from section state `st`. -/
def compilePart (single : Bool) (shader : Shader) (st : Bool) (line : String) :
    List LintResult :=
  if jsEndsWith line shader.name then []
  else if st || single then
    match compileExec line with
    | some (g1, g2, g3, g4) => [compileDiagOf shader g1 g2 g3 g4]
    | none => []
  else []

/-- Link-pattern diagnostics emitted for one line (state-independent). -/
def linkPart (shader : Shader) (firstRowRange : Range) (line : String) :
    List LintResult :=
  match linkExec shader.type.name line with
  | some (g1, g2) => [linkDiagOf shader firstRowRange g1 g2]
  | none => []

/-- All diagnostics one shader's scan emits on `lines` starting from section
state `st`. -/
def emittedFrom (single : Bool) (shader : Shader) (firstRowRange : Range) :
    Bool → List String → List LintResult
  | _, [] => []
  | st, l :: ls =>
    (compilePart single shader st l ++ linkPart shader firstRowRange l)
      ++ emittedFrom single shader firstRowRange (sectionState single shader st l) ls

/-- Section state after scanning `lines` from an inactive section. -/
def sectionStateAfter (single : Bool) (shader : Shader) (lines : List String) : Bool :=
  lines.foldl (sectionState single shader) false

theorem shaderLineStep_eq (single : Bool) (shader : Shader) (fb : Range)
    (st : Bool) (acc : List LintResult) (line : String) :
    shaderLineStep single shader fb (st, acc) line =
      (sectionState single shader st line,
       acc ++ (compilePart single shader st line ++ linkPart shader fb line)) := by
  unfold shaderLineStep sectionState compilePart linkPart
  cases h1 : jsEndsWith line shader.name <;>
    cases h2 : st || single <;>
      cases h3 : compileExec line <;>
        cases h4 : linkExec shader.type.name line <;>
          simp_all

theorem foldl_shaderLineStep (single : Bool) (shader : Shader) (fb : Range) :
    ∀ (lines : List String) (st : Bool) (acc : List LintResult),
      lines.foldl (shaderLineStep single shader fb) (st, acc) =
        (lines.foldl (sectionState single shader) st,
         acc ++ emittedFrom single shader fb st lines) := by
  intro lines
  induction lines with
  | nil => intro st acc; simp [emittedFrom]
  | cons l ls ih =>
    intro st acc
    simp only [List.foldl_cons, shaderLineStep_eq, ih, emittedFrom, List.append_assoc]

/-- Bridge: the parser is, for each shader, exactly the per-line emission
relation starting from an inactive section. -/
theorem parse_emittedFrom (inputs : List Shader) (output : String) (fb : Range) :
    parseGlslValidatorResponse inputs output fb =
      inputs.flatMap fun shader =>
        emittedFrom (inputs.length == 1) shader fb false (splitEol output) := by
  unfold parseGlslValidatorResponse
  simp [foldl_shaderLineStep]

/-! Helper lemmas. -/

theorem getSeverity_mem (s : String) : getSeverity s ∈ VALID_SEVERITY := by
  unfold getSeverity
  dsimp only
  split
  · next h => exact List.mem_of_elem_eq_true h
  · simp [VALID_SEVERITY]

theorem mem_compilePart {single st : Bool} {shader : Shader} {l : String} {d : LintResult}
    (hd : d ∈ compilePart single shader st l) :
    ∃ g1 g2 g3 g4, d = compileDiagOf shader g1 g2 g3 g4 := by
  unfold compilePart at hd
  split at hd
  · simp at hd
  · split at hd
    · split at hd
      · next g1 g2 g3 g4 _ => exact ⟨g1, g2, g3, g4, by simpa using hd⟩
      · simp at hd
    · simp at hd

theorem mem_linkPart {shader : Shader} {fb : Range} {l : String} {d : LintResult}
    (hd : d ∈ linkPart shader fb l) :
    ∃ g1 g2, d = linkDiagOf shader fb g1 g2 := by
  unfold linkPart at hd
  split at hd
  · next g1 g2 _ => exact ⟨g1, g2, by simpa using hd⟩
  · simp at hd

theorem emittedFrom_shape {single : Bool} {shader : Shader} {fb : Range} :
    ∀ (lines : List String) (st : Bool) (d : LintResult),
      d ∈ emittedFrom single shader fb st lines →
        (∃ g1 g2 g3 g4, d = compileDiagOf shader g1 g2 g3 g4) ∨
        (∃ g1 g2, d = linkDiagOf shader fb g1 g2) := by
  intro lines
  induction lines with
  | nil => intro st d hd; simp [emittedFrom] at hd
  | cons l ls ih =>
    intro st d hd
    rw [emittedFrom] at hd
    rcases List.mem_append.mp hd with h1 | h2
    · rcases List.mem_append.mp h1 with hc | hl
      · exact Or.inl (mem_compilePart hc)
      · exact Or.inr (mem_linkPart hl)
    · exact ih _ _ h2

theorem emittedFrom_eq_nil {single : Bool} {shader : Shader} {fb : Range} :
    ∀ (lines : List String) (st : Bool),
      (∀ l ∈ lines, compileExec l = none ∧ linkExec shader.type.name l = none) →
      emittedFrom single shader fb st lines = [] := by
  intro lines
  induction lines with
  | nil => intro st _; rfl
  | cons l ls ih =>
    intro st h
    have hl := h l (by simp)
    rw [emittedFrom, ih _ fun x hx => h x (by simp [hx])]
    have hc : compilePart single shader st l = [] := by
      unfold compilePart
      split
      · rfl
      · split
        · rw [hl.1]
        · rfl
    have hk : linkPart shader fb l = [] := by unfold linkPart; rw [hl.2]
    simp [hc, hk]

theorem parse_eq_nil_of (inputs : List Shader) (output : String) (fb : Range)
    (h : ∀ line ∈ splitEol output, compileExec line = none ∧
        ∀ shader ∈ inputs, linkExec shader.type.name line = none) :
    parseGlslValidatorResponse inputs output fb = [] := by
  rw [parse_emittedFrom]
  rw [List.flatMap_eq_nil_iff]
  intro shader hs
  exact emittedFrom_eq_nil _ _ fun l hl => ⟨(h l hl).1, (h l hl).2 shader hs⟩

theorem linkExec_empty (tn : String) : linkExec tn "" = none := by
  simp [linkExec]

theorem compileExec_empty : compileExec "" = none := rfl

/-- Third character after the forced-maximal severity run must be `'L'` for
the link pattern to fire; any line whose residue differs there matches the
link pattern for no stage name at all. -/
theorem linkExec_eq_none (tn line : String)
    (h : (line.data.drop (line.data.takeWhile isWordSpaceHyphen).length).take 3 ≠
        ([':', ' ', 'L'] : List Char)) :
    linkExec tn line = none := by
  have hd3 : ∃ l', (": Linking " ++ tn ++ " stage: ").data = ':' :: ' ' :: 'L' :: l' := by
    refine ⟨("inking ").data ++ (tn.data ++ (" stage: ").data), ?_⟩
    rw [String.data_append, String.data_append]
    simp [List.append_assoc]
  unfold linkExec
  dsimp only
  split
  · rfl
  · split
    · next hcond =>
      exfalso
      rw [Bool.and_eq_true] at hcond
      obtain ⟨l', hl'⟩ := hd3
      obtain ⟨t, ht⟩ := List.isPrefixOf_iff_prefix.mp hcond.1
      apply h
      rw [← ht, hl']
      rfl
    · rfl

/-! Concrete records reused by witnesses and counterexamples. -/

/-- Fragment stage record, equal to the second entry of `shaderTypes`. -/
def cFragType : ShaderType :=
  { char1 := some "f", char2 := "fs", char4 := "frag", name := "fragment" }

/-- A concrete fragment shader record as the linter builds one. -/
def cShaderFoo : Shader :=
  { type := cFragType, name := "foo.frag", fullFilename := some "/src/foo.fs.glsl"
  , contents := "", outFilename := none }

/-- A shader whose canonical name is a bare `"x"`, so that a link line can also
be a section-header line. -/
def cShaderX : Shader :=
  { type := cFragType, name := "x", fullFilename := some "f"
  , contents := "", outFilename := none }

/-- A shader whose canonical name occurs in no test line. -/
def cShaderZZ : Shader :=
  { type := cFragType, name := "zz", fullFilename := some "a.frag"
  , contents := "", outFilename := none }

/-- All-zero fallback range. -/
def rngZero : Range := ((0, 0), (0, 0))

/-! Claims. -/

/-- Claim C8: in the fixed built-in set of six shader stages, the
`twoLetterCode` (`char2`) values are pairwise distinct, the `fourLetterCode`
(`char4`) values are pairwise distinct, and the `singleLetterCode` (`char1`)
values are pairwise distinct among the stages that define one; exactly three
of the six stages define no `char1`. -/
theorem claim8_stage_codes_distinct :
    (shaderTypes.map fun t => t.char2).Nodup
    ∧ (shaderTypes.map fun t => t.char4).Nodup
    ∧ (shaderTypes.filterMap fun t => t.char1).Nodup
    ∧ (shaderTypes.filter fun t => t.char1 == none).length = 3 := by
  decide

/-- Claim C9: parsing never fails on its input text — an empty `rawOutput`
yields an empty diagnostic list, and when every line of the output matches
neither the compile pattern nor any submitted shader's link pattern, no
diagnostic is produced at all. -/
theorem claim9_parse_ignores_nonmatching :
    (∀ (inputs : List Shader) (fb : Range),
        parseGlslValidatorResponse inputs "" fb = [])
    ∧ (∀ (inputs : List Shader) (output : String) (fb : Range),
        (∀ line ∈ splitEol output, compileExec line = none ∧
            ∀ shader ∈ inputs, linkExec shader.type.name line = none) →
          parseGlslValidatorResponse inputs output fb = []) := by
  constructor
  · intro inputs fb
    apply parse_eq_nil_of
    intro line hline
    have : line = "" := by
      have : splitEol "" = [""] := rfl
      rw [this] at hline
      simpa using hline
    subst this
    exact ⟨compileExec_empty, fun shader _ => linkExec_empty shader.type.name⟩
  · exact parse_eq_nil_of

/-- Witness for C9: a single arbitrary non-matching line produces no
diagnostics. -/
theorem claim9_witness :
    parseGlslValidatorResponse [cShaderFoo] "hello" rngZero = [] :=
  claim9_parse_ignores_nonmatching.2 [cShaderFoo] "hello" rngZero (by decide)

/-- Claim C10: a line whose trailing content equals a shader's canonical name
only (re)activates the compile section and is never itself tested against the
compile pattern — in every mode (`single` arbitrary) the step on such a line
adds exactly the link-pattern diagnostics and sets the section state to true.
Concretely, even in a single-shader batch the compile-matching header line
`"ERROR: 1:2: foo.frag"` produces no diagnostic, while a header line that
matches the link pattern still produces its link diagnostic. -/
theorem claim10_header_line_no_compile :
    (∀ (single : Bool) (shader : Shader) (fb : Range) (st : Bool)
        (acc : List LintResult) (line : String),
        jsEndsWith line shader.name = true →
          shaderLineStep single shader fb (st, acc) line =
            (true, acc ++ linkPart shader fb line))
    ∧ (compileExec "ERROR: 1:2: foo.frag").isSome = true
    ∧ parseGlslValidatorResponse [cShaderFoo] "ERROR: 1:2: foo.frag" rngZero = []
    ∧ parseGlslValidatorResponse [cShaderX] "ERROR: Linking fragment stage: x" rngZero =
        [{ severity := "error", excerpt := "x"
         , location := { file := some "f", position := rngZero } }] := by
  refine ⟨?_, rfl, rfl, rfl⟩
  intro single shader fb st acc line h
  rw [shaderLineStep_eq]
  simp [sectionState, compilePart, h]

/-- Witness for C10: the step applied to a pure header line. -/
theorem claim10_witness :
    shaderLineStep true cShaderX rngZero (false, []) "x" =
      (true, [] ++ linkPart cShaderX rngZero "x") :=
  claim10_header_line_no_compile.1 true cShaderX rngZero false [] "x" (by decide)

theorem linkDiag_mem_emittedFrom {single : Bool} {shader : Shader} {fb : Range}
    {line g1 g2 : String}
    (hm : linkExec shader.type.name line = some (g1, g2)) :
    ∀ (lines : List String) (st : Bool), line ∈ lines →
      linkDiagOf shader fb g1 g2 ∈ emittedFrom single shader fb st lines := by
  intro lines
  induction lines with
  | nil => intro st hmem; simp at hmem
  | cons l ls ih =>
    intro st hmem
    rw [emittedFrom]
    rcases List.mem_cons.mp hmem with rfl | hin
    · exact List.mem_append_left _ (List.mem_append_right _ (by simp [linkPart, hm]))
    · exact List.mem_append_right _ (ih _ hin)

/-- Claim C1: for a single submitted shader and raw output consisting of
exactly the line `"ERROR: 3:5: undefined variable 'x'"` (which does not end
with the shader's canonical name), `parse` returns exactly one diagnostic with
severity `"error"`, the trimmed message, the shader's original full path, and
the single-point range `[[4, 2], [4, 2]]`: in a compile line the first number
is the column and the second the line, both made zero-based. -/
theorem claim1_parse_roundtrip (shader : Shader) (fb : Range)
    (h : jsEndsWith "ERROR: 3:5: undefined variable 'x'" shader.name = false) :
    parseGlslValidatorResponse [shader] "ERROR: 3:5: undefined variable 'x'" fb =
      [{ severity := "error", excerpt := "undefined variable 'x'"
       , location := { file := shader.fullFilename, position := ((4, 2), (4, 2)) } }] := by
  have hlink : ∀ tn, linkExec tn "ERROR: 3:5: undefined variable 'x'" = none :=
    fun tn => linkExec_eq_none tn _ (by decide)
  have hce : compileExec "ERROR: 3:5: undefined variable 'x'" =
      some ("ERROR", "3", "5", "undefined variable 'x'") := rfl
  have hcp : compilePart true shader false "ERROR: 3:5: undefined variable 'x'" =
      [compileDiagOf shader "ERROR" "3" "5" "undefined variable 'x'"] := by
    simp [compilePart, h, hce]
  have hlp : linkPart shader fb "ERROR: 3:5: undefined variable 'x'" = [] := by
    simp [linkPart, hlink]
  have hdiag : compileDiagOf shader "ERROR" "3" "5" "undefined variable 'x'" =
      { severity := "error", excerpt := "undefined variable 'x'"
      , location := { file := shader.fullFilename, position := ((4, 2), (4, 2)) } } := rfl
  have hsplit : splitEol "ERROR: 3:5: undefined variable 'x'" =
      ["ERROR: 3:5: undefined variable 'x'"] := rfl
  rw [parse_emittedFrom, hsplit]
  simp [emittedFrom, hcp, hlp, hdiag]

/-- Witness for C1 at a concrete shader record. -/
theorem claim1_witness :
    parseGlslValidatorResponse [cShaderFoo] "ERROR: 3:5: undefined variable 'x'" rngZero =
      [{ severity := "error", excerpt := "undefined variable 'x'"
       , location := { file := some "/src/foo.fs.glsl", position := ((4, 2), (4, 2)) } }] :=
  claim1_parse_roundtrip cShaderFoo rngZero (by decide)

/-- Claim C5: independently of the compile-section state, every output line on
which the link pattern fires for a submitted shader's stage display name
contributes a diagnostic whose message is group 2 trimmed, whose file is that
shader's original path and whose range is the caller-supplied fallback range —
the link test is applied to every line, in every mode, alongside the compile
test. -/
theorem claim5_link_always_applies (inputs : List Shader) (output : String) (fb : Range)
    (shader : Shader) (line g1 g2 : String)
    (hs : shader ∈ inputs) (hl : line ∈ splitEol output)
    (hm : linkExec shader.type.name line = some (g1, g2)) :
    ({ severity := getSeverity g1, excerpt := jsTrim g2
     , location := { file := shader.fullFilename, position := fb } } : LintResult) ∈
      parseGlslValidatorResponse inputs output fb := by
  rw [parse_emittedFrom]
  exact List.mem_flatMap.mpr ⟨shader, hs, linkDiag_mem_emittedFrom hm _ _ hl⟩

/-- Witness for C5 on the spec's link example. -/
theorem claim5_witness :
    ({ severity := "error", excerpt := "too many varyings"
     , location := { file := some "/src/foo.fs.glsl", position := rngZero } } : LintResult) ∈
      parseGlslValidatorResponse [cShaderFoo]
        "ERROR: Linking fragment stage: too many varyings" rngZero :=
  claim5_link_always_applies [cShaderFoo]
    "ERROR: Linking fragment stage: too many varyings" rngZero cShaderFoo
    "ERROR: Linking fragment stage: too many varyings" "ERROR" "too many varyings"
    (by decide) (by decide) (by decide)

/-- Claim C6: the severity word is compared case-insensitively against
`{error, warning, info}`; a member yields itself lowercased, anything else
yields `"warning"`, every diagnostic `parse` emits carries a severity from
that set, and the single-shader line `"NOTICE: 1:1: foo"` produces exactly one
diagnostic with severity `"warning"`. -/
theorem claim6_severity_normalization :
    (∀ s : String,
        (VALID_SEVERITY.contains (jsToLower s) = true → getSeverity s = jsToLower s)
        ∧ (VALID_SEVERITY.contains (jsToLower s) = false → getSeverity s = "warning"))
    ∧ (∀ (inputs : List Shader) (output : String) (fb : Range) (d : LintResult),
        d ∈ parseGlslValidatorResponse inputs output fb → d.severity ∈ VALID_SEVERITY)
    ∧ parseGlslValidatorResponse [cShaderFoo] "NOTICE: 1:1: foo" rngZero =
        [{ severity := "warning", excerpt := "foo"
         , location := { file := some "/src/foo.fs.glsl", position := rngZero } }] := by
  refine ⟨fun s =>
    ⟨fun h => by unfold getSeverity; dsimp only; rw [if_pos h],
     fun h => by
      unfold getSeverity; dsimp only
      rw [if_neg (by rw [h]; exact Bool.false_ne_true)]⟩,
    ?_, rfl⟩
  intro inputs output fb d hd
  rw [parse_emittedFrom] at hd
  obtain ⟨shader, _, hd'⟩ := List.mem_flatMap.mp hd
  rcases emittedFrom_shape _ _ _ hd' with ⟨g1, g2, g3, g4, rfl⟩ | ⟨g1, g2, rfl⟩
  · exact getSeverity_mem g1
  · exact getSeverity_mem g1

/-- Witness for C6: `"NOTICE"` is not a recognized severity word and
normalizes to `"warning"`. -/
theorem claim6_witness : getSeverity "NOTICE" = "warning" :=
  (claim6_severity_normalization.1 "NOTICE").2 (by decide)

/-- Non-negativity of all four coordinates of a range. -/
def RangeNonneg (r : Range) : Prop :=
  0 ≤ r.1.1 ∧ 0 ≤ r.1.2 ∧ 0 ≤ r.2.1 ∧ 0 ≤ r.2.2

instance instDecidableRangeNonneg (r : Range) : Decidable (RangeNonneg r) :=
  inferInstanceAs (Decidable (_ ∧ _ ∧ _ ∧ _))

/-- Counterexample to C7 as stated: link diagnostics copy the caller-supplied
fallback range verbatim, so a negative fallback range produces a diagnostic
with a negative line number. -/
theorem claim7_counterexample :
    ∃ d ∈ parseGlslValidatorResponse [cShaderZZ] "ERROR: Linking fragment stage: x"
        ((-1, 0), (0, 0)), d.location.position.1.1 < 0 := by
  decide

/-- Claim C7 (amended): every compile diagnostic has the reported one-based
column and line decremented with clamping at 0 and start = end; every other
diagnostic's range is the fallback range itself, so all emitted diagnostics
have non-negative coordinates whenever the supplied fallback range does. -/
theorem claim7_amended_nonneg (inputs : List Shader) (output : String) (fb : Range)
    (d : LintResult) (hfb : RangeNonneg fb)
    (hd : d ∈ parseGlslValidatorResponse inputs output fb) :
    RangeNonneg d.location.position ∧
      (d.location.position = fb ∨ d.location.position.1 = d.location.position.2) := by
  rw [parse_emittedFrom] at hd
  obtain ⟨shader, _, hd'⟩ := List.mem_flatMap.mp hd
  rcases emittedFrom_shape _ _ _ hd' with ⟨g1, g2, g3, g4, rfl⟩ | ⟨g1, g2, rfl⟩
  · constructor
    · refine ⟨?_, ?_, ?_, ?_⟩ <;> (dsimp [compileDiagOf]; split_ifs <;> omega)
    · exact Or.inr rfl
  · exact ⟨hfb, Or.inl rfl⟩

/-- Witness for the amended C7 at a concrete link diagnostic. -/
theorem claim7_witness :
    RangeNonneg
        ({ severity := "error", excerpt := "x"
         , location := { file := some "f", position := rngZero } } : LintResult).location.position
      ∧ (({ severity := "error", excerpt := "x"
          , location := { file := some "f", position := rngZero } } : LintResult).location.position = rngZero
        ∨ ({ severity := "error", excerpt := "x"
           , location := { file := some "f", position := rngZero } } : LintResult).location.position.1 =
          ({ severity := "error", excerpt := "x"
           , location := { file := some "f", position := rngZero } } : LintResult).location.position.2) :=
  claim7_amended_nonneg [cShaderX] "ERROR: Linking fragment stage: x" rngZero
    { severity := "error", excerpt := "x"
    , location := { file := some "f", position := rngZero } }
    (by decide) (by decide)

/-- A filename matches one of the five naming conventions of the spec exactly
when one of the five regexes fires. -/
def matchesNamingConvention (fileName : String) : Bool :=
  (char1glslExec fileName).isSome || (char2glslExec fileName).isSome
    || (char1shExec fileName).isSome || (char2Exec fileName).isSome
    || (defaultExec fileName).isSome

theorem char1glslExec_code {s b : String} {c : Char}
    (h : char1glslExec s = some (b, c)) : isChar1Code c = true := by
  unfold char1glslExec at h
  split at h
  · split at h
    · next hcond =>
      simp only [Option.some.injEq, Prod.mk.injEq] at h
      obtain ⟨-, rfl⟩ := h
      simp only [Bool.and_eq_true] at hcond
      tauto
    · simp at h
  · simp at h

theorem char1shExec_code {s b : String} {c : Char}
    (h : char1shExec s = some (b, c)) : isChar1Code c = true := by
  unfold char1shExec at h
  split at h
  · split at h
    · next hcond =>
      simp only [Option.some.injEq, Prod.mk.injEq] at h
      obtain ⟨-, rfl⟩ := h
      simp only [Bool.and_eq_true] at hcond
      tauto
    · simp at h
  · simp at h

theorem char2glslExec_code {s b c2 : String}
    (h : char2glslExec s = some (b, c2)) : isChar2Code c2 = true := by
  unfold char2glslExec at h
  split at h
  · split at h
    · next hcond =>
      simp only [Option.some.injEq, Prod.mk.injEq] at h
      obtain ⟨-, rfl⟩ := h
      simp only [Bool.and_eq_true] at hcond
      tauto
    · simp at h
  · simp at h

theorem char2Exec_code {s b c2 : String}
    (h : char2Exec s = some (b, c2)) : isChar2Code c2 = true := by
  unfold char2Exec at h
  split at h
  · split at h
    · next hcond =>
      simp only [Option.some.injEq, Prod.mk.injEq] at h
      obtain ⟨-, rfl⟩ := h
      simp only [Bool.and_eq_true] at hcond
      tauto
    · simp at h
  · simp at h

theorem defaultExec_code {s b c4 : String}
    (h : defaultExec s = some (b, c4)) : isChar4Code c4 = true := by
  unfold defaultExec at h
  split at h
  · split at h
    · next hcond =>
      simp only [Option.some.injEq, Prod.mk.injEq] at h
      obtain ⟨-, rfl⟩ := h
      simp only [Bool.and_eq_true] at hcond
      tauto
    · simp at h
  · simp at h

theorem shaderTypeLookup_mem {f : ShaderType → Option String} {v : String} {t : ShaderType}
    (h : shaderTypeLookup f v = some t) : t ∈ shaderTypes := by
  unfold shaderTypeLookup at h
  exact List.mem_of_mem_filter (List.mem_of_mem_head? (Option.mem_def.mpr h))

theorem shaderByChar1_of_code {c : Char} (h : isChar1Code c = true) :
    ∃ t, shaderByChar1 ⟨[c]⟩ = some t := by
  simp only [isChar1Code, Bool.or_eq_true, beq_iff_eq] at h
  rcases h with (rfl | rfl) | rfl
  · exact ⟨_, rfl⟩
  · exact ⟨_, rfl⟩
  · exact ⟨_, rfl⟩

theorem shaderByChar2_of_code {s : String} (h : isChar2Code s = true) :
    ∃ t, shaderByChar2 s = some t := by
  simp only [isChar2Code, Bool.or_eq_true, beq_iff_eq] at h
  rcases h with ((((rfl | rfl) | rfl) | rfl) | rfl) | rfl
  · exact ⟨_, rfl⟩
  · exact ⟨_, rfl⟩
  · exact ⟨_, rfl⟩
  · exact ⟨_, rfl⟩
  · exact ⟨_, rfl⟩
  · exact ⟨_, rfl⟩

theorem shaderByChar4_of_code {s : String} (h : isChar4Code s = true) :
    ∃ t, shaderByChar4 s = some t := by
  simp only [isChar4Code, Bool.or_eq_true, beq_iff_eq] at h
  rcases h with ((((rfl | rfl) | rfl) | rfl) | rfl) | rfl
  · exact ⟨_, rfl⟩
  · exact ⟨_, rfl⟩
  · exact ⟨_, rfl⟩
  · exact ⟨_, rfl⟩
  · exact ⟨_, rfl⟩
  · exact ⟨_, rfl⟩

theorem classifyMatch_none_iff (f : String) :
    classifyMatch f = none ↔ matchesNamingConvention f = false := by
  unfold classifyMatch matchesNamingConvention
  rcases h1 : char1glslExec f with _ | p1 <;>
    rcases h2 : char2glslExec f with _ | p2 <;>
      rcases h3 : char1shExec f with _ | p3 <;>
        rcases h4 : char2Exec f with _ | p4 <;>
          rcases h5 : defaultExec f with _ | p5 <;>
            simp [h1, h2, h3, h4, h5]

theorem classifyMatch_lookup {f b : String} {ot : Option ShaderType}
    (h : classifyMatch f = some (b, ot)) :
    ∃ t, ot = some t ∧ t ∈ shaderTypes := by
  unfold classifyMatch at h
  rcases h1 : char1glslExec f with _ | ⟨b1, c1⟩
  · simp only [h1] at h
    rcases h2 : char2glslExec f with _ | ⟨b2, c2⟩
    · simp only [h2] at h
      rcases h3 : char1shExec f with _ | ⟨b3, c3⟩
      · simp only [h3] at h
        rcases h4 : char2Exec f with _ | ⟨b4, c4⟩
        · simp only [h4] at h
          rcases h5 : defaultExec f with _ | ⟨b5, c5⟩
          · simp only [h5] at h
            exact Option.noConfusion h
          · simp only [h5] at h
            obtain ⟨t, ht⟩ := shaderByChar4_of_code (defaultExec_code h5)
            simp only [Option.some.injEq, Prod.mk.injEq] at h
            exact ⟨t, by rw [← h.2]; exact ht, shaderTypeLookup_mem ht⟩
        · simp only [h4] at h
          obtain ⟨t, ht⟩ := shaderByChar2_of_code (char2Exec_code h4)
          simp only [Option.some.injEq, Prod.mk.injEq] at h
          exact ⟨t, by rw [← h.2]; exact ht, shaderTypeLookup_mem ht⟩
      · simp only [h3] at h
        obtain ⟨t, ht⟩ := shaderByChar1_of_code (char1shExec_code h3)
        simp only [Option.some.injEq, Prod.mk.injEq] at h
        exact ⟨t, by rw [← h.2]; exact ht, shaderTypeLookup_mem ht⟩
    · simp only [h2] at h
      obtain ⟨t, ht⟩ := shaderByChar2_of_code (char2glslExec_code h2)
      simp only [Option.some.injEq, Prod.mk.injEq] at h
      exact ⟨t, by rw [← h.2]; exact ht, shaderTypeLookup_mem ht⟩
  · simp only [h1] at h
    obtain ⟨t, ht⟩ := shaderByChar1_of_code (char1glslExec_code h1)
    simp only [Option.some.injEq, Prod.mk.injEq] at h
    exact ⟨t, by rw [← h.2]; exact ht, shaderTypeLookup_mem ht⟩

/-- Claim C2: classification fails with the `UnrecognizedShaderExtension`
error (`unknownShaderType` in the source) exactly for filenames whose basename
matches none of the five naming conventions, and succeeds on every filename
matching at least one of them. -/
theorem claim2_classification_domain :
    ∀ fn : String,
      ((extractShaderFilenameTokens fn).isOk = matchesNamingConvention (basename fn))
      ∧ (matchesNamingConvention (basename fn) = false →
          extractShaderFilenameTokens fn = Except.error ClassifyError.unknownShaderType) := by
  intro fn
  constructor
  · unfold extractShaderFilenameTokens
    rcases hcm : classifyMatch (basename fn) with _ | ⟨b, ot⟩
    · rw [(classifyMatch_none_iff _).mp hcm]
      rfl
    · obtain ⟨t, hot, _⟩ := classifyMatch_lookup hcm
      subst hot
      have hmv : matchesNamingConvention (basename fn) = true := by
        cases hmv : matchesNamingConvention (basename fn) with
        | true => rfl
        | false => exact absurd hcm (by rw [(classifyMatch_none_iff _).mpr hmv]; simp)
      rw [hmv]
      rfl
  · intro hm
    unfold extractShaderFilenameTokens
    rw [(classifyMatch_none_iff _).mpr hm]

/-- Witness for C2: `"readme.txt"` matches no convention and fails with the
unknown-shader-type error. -/
theorem claim2_witness :
    extractShaderFilenameTokens "readme.txt" = Except.error ClassifyError.unknownShaderType :=
  (claim2_classification_domain "readme.txt").2 (by decide)

/-- Claim C3: every successful classification returns a stage from the fixed
stage table and a canonical output name equal to the base portion — with
exactly one trailing `'.'` separator ensured — concatenated with the stage's
four-letter code; in particular `"foo.fs.glsl"` classifies as fragment with
output name `"foo.frag"` and `"foo.vsh"` as vertex with output name
`"foo.vert"`. -/
theorem claim3_classification_result (fn : String) (t : ShaderTokens)
    (h : extractShaderFilenameTokens fn = Except.ok t) :
    (t.outFilename =
      (if jsEndsWith t.baseFilename "." then t.baseFilename else t.baseFilename ++ ".")
        ++ t.baseShaderType.char4)
    ∧ t.baseShaderType ∈ shaderTypes
    ∧ extractShaderFilenameTokens "foo.fs.glsl" = Except.ok
        { baseFilename := "foo."
        , baseShaderType := { char1 := some "f", char2 := "fs", char4 := "frag", name := "fragment" }
        , dirName := ".", outFilename := "foo.frag", fullFilename := "foo.fs.glsl" }
    ∧ extractShaderFilenameTokens "foo.vsh" = Except.ok
        { baseFilename := "foo."
        , baseShaderType := { char1 := some "v", char2 := "vs", char4 := "vert", name := "vertex" }
        , dirName := ".", outFilename := "foo.vert", fullFilename := "foo.vsh" } := by
  have key : ∃ (b : String) (t' : ShaderType),
      t = { baseFilename := b, baseShaderType := t'
          , dirName := dirname fn
          , outFilename := (if jsEndsWith b "." then b else b ++ ".") ++ t'.char4
          , fullFilename := fn }
      ∧ t' ∈ shaderTypes := by
    unfold extractShaderFilenameTokens at h
    rcases hcm : classifyMatch (basename fn) with _ | ⟨b, ot⟩ <;> simp only [hcm] at h
    · cases h
    · obtain ⟨t', hot, hmem⟩ := classifyMatch_lookup hcm
      subst hot
      simp only [Except.ok.injEq] at h
      exact ⟨b, t', h.symm, hmem⟩
  obtain ⟨b, t', rfl, hmem⟩ := key
  exact ⟨rfl, hmem, rfl, rfl⟩

/-- Witness for C3 at the concrete filename `"foo.vsh"`. -/
theorem claim3_witness :
    (({ baseFilename := "foo."
      , baseShaderType := { char1 := some "v", char2 := "vs", char4 := "vert", name := "vertex" }
      , dirName := ".", outFilename := "foo.vert", fullFilename := "foo.vsh" } : ShaderTokens).outFilename =
      (if jsEndsWith "foo." "." then "foo." else "foo." ++ ".") ++ "vert")
    ∧ ({ char1 := some "v", char2 := "vs", char4 := "vert", name := "vertex" } : ShaderType) ∈ shaderTypes
    ∧ extractShaderFilenameTokens "foo.fs.glsl" = Except.ok
        { baseFilename := "foo."
        , baseShaderType := { char1 := some "f", char2 := "fs", char4 := "frag", name := "fragment" }
        , dirName := ".", outFilename := "foo.frag", fullFilename := "foo.fs.glsl" }
    ∧ extractShaderFilenameTokens "foo.vsh" = Except.ok
        { baseFilename := "foo."
        , baseShaderType := { char1 := some "v", char2 := "vs", char4 := "vert", name := "vertex" }
        , dirName := ".", outFilename := "foo.vert", fullFilename := "foo.vsh" } :=
  claim3_classification_result "foo.vsh"
    { baseFilename := "foo."
    , baseShaderType := { char1 := some "v", char2 := "vs", char4 := "vert", name := "vertex" }
    , dirName := ".", outFilename := "foo.vert", fullFilename := "foo.vsh" } rfl

theorem sectionState_eq (single : Bool) (shader : Shader) (st : Bool) (line : String) :
    sectionState single shader st line =
      (jsEndsWith line shader.name || (st && (compileExec line).isSome)) := by
  unfold sectionState
  cases h1 : jsEndsWith line shader.name <;>
    cases st <;> cases single <;> cases h2 : compileExec line <;> simp [h1, h2]

theorem sectionStateAfter_iff (single : Bool) (shader : Shader) (lines : List String) :
    sectionStateAfter single shader lines = true ↔
      ∃ p h t, lines = p ++ h :: t ∧ jsEndsWith h shader.name = true ∧
        ∀ x ∈ t, (compileExec x).isSome = true := by
  unfold sectionStateAfter
  induction lines using List.reverseRecOn with
  | nil => simp
  | append_singleton ms m ih =>
    rw [List.foldl_append]
    simp only [List.foldl_cons, List.foldl_nil]
    rw [sectionState_eq]
    constructor
    · intro hh
      rw [Bool.or_eq_true] at hh
      rcases hh with hends | hstm
      · exact ⟨ms, m, [], rfl, hends, by simp⟩
      · rw [Bool.and_eq_true] at hstm
        obtain ⟨p, h, t, rfl, hh2, ht⟩ := ih.mp hstm.1
        refine ⟨p, h, t ++ [m], by simp, hh2, ?_⟩
        intro x hx
        rcases List.mem_append.mp hx with hx | hx
        · exact ht x hx
        · simp only [List.mem_singleton] at hx
          subst hx
          exact hstm.2
    · rintro ⟨p, h, t, heq, hh2, ht⟩
      rcases List.eq_nil_or_concat t with rfl | ⟨t', x, rfl⟩
      · obtain ⟨rfl, hm⟩ := List.append_inj' heq rfl
        have hm' : m = h := by simpa using hm
        simp [hm', hh2]
      · rw [List.concat_eq_append] at heq ht
        have heq2 : ms ++ [m] = (p ++ h :: t') ++ [x] := by
          simpa [List.append_assoc] using heq
        obtain ⟨rfl, hx⟩ := List.append_inj' heq2 rfl
        have hx' : m = x := by simpa using hx
        subst hx'
        have hS : List.foldl (sectionState single shader) false (p ++ h :: t') = true :=
          ih.mpr ⟨p, h, t', rfl, hh2, fun y hy => ht y (List.mem_append_left _ hy)⟩
        have hcm : (compileExec m).isSome = true := ht m (by simp)
        simp [hS, hcm]

/-- Claim C4: the submitted-batch gating of compile diagnostics.  Conjunct 1
grounds the scan in `parse` itself; conjunct 2 characterizes the
compile-section state after any prefix of lines: it is active exactly when
some line ended with the shader's canonical name and every later line matched
the compile pattern (a non-matching line deactivates the section); conjunct 3
is the multi-shader direction — a compile diagnostic can be emitted at a line
only under that history, so matches before the shader's header line are
skipped; conjunct 4 is the batch-of-one shortcut — with a single shader a
compile-matching non-header line always emits, with no header required. -/
theorem claim4_compile_section_gating :
    (∀ (inputs : List Shader) (output : String) (fb : Range),
        parseGlslValidatorResponse inputs output fb =
          inputs.flatMap fun shader =>
            emittedFrom (inputs.length == 1) shader fb false (splitEol output))
    ∧ (∀ (single : Bool) (shader : Shader) (lines : List String),
        sectionStateAfter single shader lines = true ↔
          ∃ p h t, lines = p ++ h :: t ∧ jsEndsWith h shader.name = true ∧
            ∀ x ∈ t, (compileExec x).isSome = true)
    ∧ (∀ (shader : Shader) (pre : List String) (line : String),
        compilePart false shader (sectionStateAfter false shader pre) line ≠ [] →
          ∃ p h t, pre = p ++ h :: t ∧ jsEndsWith h shader.name = true ∧
            ∀ x ∈ t, (compileExec x).isSome = true)
    ∧ (∀ (shader : Shader) (st : Bool) (line : String),
        jsEndsWith line shader.name = false → (compileExec line).isSome = true →
          compilePart true shader st line ≠ []) := by
  refine ⟨parse_emittedFrom, sectionStateAfter_iff, ?_, ?_⟩
  · intro shader pre line hne
    cases hv : sectionStateAfter false shader pre with
    | false =>
      rw [hv] at hne
      exact absurd (by simp [compilePart]) hne
    | true => exact (sectionStateAfter_iff false shader pre).mp hv
  · intro shader st line h1 h2
    rcases hce : compileExec line with _ | ⟨g1, g2, g3, g4⟩
    · rw [hce] at h2
      exact absurd h2 (by simp)
    · simp [compilePart, h1, hce]

/-- Witness for C4: in a single-shader batch a compile-matching non-header
line emits a diagnostic with no header line before it. -/
theorem claim4_witness :
    compilePart true cShaderZZ false "ERROR: 1:1: x" ≠ [] :=
  claim4_compile_section_gating.2.2.2 cShaderZZ false "ERROR: 1:1: x" (by decide) (by decide)

end LinterGlslify
